import Mathlib

/-
Verification development for the Avika conversational questionnaire.
Shallow embedding of src/questionnaire.py, src/chatbot.py and src/app.py.
External generative-model calls are modelled by an explicit oracle; Python
dicts are modelled as insertion-ordered association lists with replace-or-
append assignment; numeric division is modelled exactly over the rationals.
-/

namespace Avika

/-- Category enumeration, from questionnaire.py (class Category). -/
inductive Category where
  | APPEARANCE_AWARENESS
  | ATTITUDE_ENGAGEMENT
  | BEHAVIOR_PERFORMANCE
  | SOMATIC_COMPLAINTS
deriving DecidableEq, Repr

/-- Question record, from questionnaire.py (dataclass Question). Options are an
insertion-ordered mapping from letter to description. -/
structure Question where
  id : Int
  category : Category
  text : String
  options : List (String × String)
  keywords : List String
  context_hints : List String
deriving DecidableEq, Repr

/-- One stored answer value: the Python dict object
with keys answer and source written by app.py. -/
structure AnswerData where
  answer : String
  source : String
deriving DecidableEq, Repr

/-- A Python dict with Int keys, modelled as an insertion-ordered association
list whose keys are unique (every write goes through pyDictSet). -/
abbrev PyDict (α : Type) := List (Int × α)

/-- Python d[k] lookup (some value) or key absence (none). -/
def pyDictGet? {α : Type} (d : PyDict α) (k : Int) : Option α :=
  match d with
  | [] => none
  | p :: rest => if p.1 == k then some p.2 else pyDictGet? rest k

/-- Python d.get(k, dflt). -/
def pyDictGetD {α : Type} (d : PyDict α) (k : Int) (dflt : α) : α :=
  (pyDictGet? d k).getD dflt

/-- Python d[k] = v: replace the value in place if the key is present,
otherwise append the new key at the end (insertion order preserved). -/
def pyDictSet {α : Type} (d : PyDict α) (k : Int) (v : α) : PyDict α :=
  match d with
  | [] => [(k, v)]
  | p :: rest => if p.1 == k then (k, v) :: rest else p :: pyDictSet rest k v

/-- Python dict(pairs) built by successive assignment: unique keys, last
write wins, first-insertion order. -/
def pyDictOf {α : Type} (l : List (Int × α)) : PyDict α :=
  l.foldl (fun d p => pyDictSet d p.1 p.2) []

/-- Python d.values() in insertion order. -/
def pyDictValues {α : Type} (d : PyDict α) : List α :=
  d.map (fun p => p.2)

/-- Python truthiness of an optional string: None and the empty string are
falsy, every other string is truthy. -/
def pyTruthyStrOpt : Option String → Bool
  | none => false
  | some s => !(s == "")

/-- Python truthiness of an optional list: None and the empty list are falsy. -/
def pyTruthyListOpt {α : Type} : Option (List α) → Bool
  | none => false
  | some l => !l.isEmpty

/-- The Answer Store: Python dict question id to (None or answer record),
questionnaire.py field current_answers. -/
abbrev AnswerStore := PyDict (Option AnswerData)

/-- The static question bank, from the Questionnaire constructor in
questionnaire.py. -/
def questions : List Question := [
  ⟨1, Category.APPEARANCE_AWARENESS,
    "Over the past two weeks, how would you describe your physical appearance and grooming habits?",
    [("A", "Appropriate – Well-dressed and neatly groomed throughout"),
     ("B", "Well-groomed – Generally clean and tidy, with some attention to appearance"),
     ("C", "Disheveled – Often untidy or unkempt, but basic hygiene maintained"),
     ("D", "Neglected hygiene – Frequently poorly groomed, with noticeable issues")],
    ["appearance", "grooming", "dressed", "clean", "hygiene", "clothes", "shower", "shaved", "makeup"],
    ["how do you look", "how are you dressed", "how do you take care of yourself"]⟩,
  ⟨2, Category.APPEARANCE_AWARENESS,
    "Over the past two weeks, how connected have you felt to your surroundings?",
    [("A", "Fully connected – Actively engaged and aware of your environment"),
     ("B", "Partially connected – Sometimes engaged, but with occasional feelings of detachment"),
     ("C", "Disconnected – Frequently felt distant or detached from surroundings"),
     ("D", "Completely detached – Felt removed or numb, as though observing rather than participating")],
    ["connected", "surroundings", "environment", "aware", "present", "detached", "distant"],
    ["how do you feel about your surroundings", "do you feel present", "how aware are you"]⟩,
  ⟨3, Category.APPEARANCE_AWARENESS,
    "Over the past two weeks, how would you describe your awareness and response to everyday situations?",
    [("A", "Alert and responsive – Quickly noticed and responded appropriately"),
     ("B", "Mildly distracted – Occasionally missed details but could still participate"),
     ("C", "Often preoccupied – Frequently lost in thought, slow or inappropriate responses"),
     ("D", "Unaware or withdrawn – Rarely engaged or aware of what was happening")],
    ["aware", "alert", "responsive", "distracted", "preoccupied", "withdrawn"],
    ["how do you respond to situations", "how aware are you of what\x27s happening"]⟩,
  ⟨4, Category.ATTITUDE_ENGAGEMENT,
    "How do you generally respond when someone asks for your opinion?",
    [("A", "I respond openly and constructively"),
     ("B", "I avoid giving direct answers"),
     ("C", "I question their intent before answering"),
     ("D", "I refuse to answer or challenge the question")],
    ["opinion", "respond", "answer", "question", "avoid", "challenge"],
    ["how do you give your opinion", "what do you do when asked for your thoughts"]⟩,
  ⟨5, Category.ATTITUDE_ENGAGEMENT,
    "How do you maintain eye contact in a conversation?",
    [("A", "I maintain steady and appropriate eye contact"),
     ("B", "I look around frequently or avoid direct gaze"),
     ("C", "I maintain eye contact but remain reserved"),
     ("D", "I stare intensely or aggressively")],
    ["eye contact", "look", "gaze", "stare", "eyes"],
    ["how do you look at people", "do you make eye contact"]⟩,
  ⟨6, Category.ATTITUDE_ENGAGEMENT,
    "How do you generally move or use gestures when interacting?",
    [("A", "I use natural gestures that match my speech"),
     ("B", "I fidget or avoid noticeable movement"),
     ("C", "I keep my movements restricted or deliberate"),
     ("D", "I use abrupt or forceful gestures")],
    ["gesture", "move", "fidget", "restricted", "forceful", "body language"],
    ["how do you move when talking", "what do you do with your hands"]⟩,
  ⟨7, Category.BEHAVIOR_PERFORMANCE,
    "How did it feel when you spoke to people during recent conversations?",
    [("A", "Pretty normal, nothing different"),
     ("B", "A bit faster than usual, but still clear"),
     ("C", "Like I have to think a bit more before I speak"),
     ("D", "Like words tumble out before I\x27ve fully thought them through")],
    ["speak", "talk", "conversation", "words", "think", "clear"],
    ["how do you feel when talking", "how do you speak in conversations"]⟩,
  ⟨8, Category.BEHAVIOR_PERFORMANCE,
    "How do you usually respond to a rough day?",
    [("A", "I shake it off pretty easily and move on"),
     ("B", "I get upset, but remind myself it\x27ll pass and keep going"),
     ("C", "I try! But it often feels like what I do doesn\x27t matter"),
     ("D", "I feel like it\x27s all too much, and nothing I do will really change things")],
    ["rough day", "upset", "shake off", "overwhelm", "cope", "handle"],
    ["how do you deal with bad days", "what do you do when things go wrong"]⟩,
  ⟨9, Category.BEHAVIOR_PERFORMANCE,
    "What usually happens when you start speaking in a meeting?",
    [("A", "I give an update with key points in order"),
     ("B", "I pause to collect my thoughts, then explain things"),
     ("C", "I start talking but lose track or forget important details"),
     ("D", "I struggle to find the right words and jump between unrelated points")],
    ["meeting", "speak", "explain", "thoughts", "track", "words"],
    ["how do you speak in meetings", "what happens when you present"]⟩,
  ⟨10, Category.SOMATIC_COMPLAINTS,
    "How often have you felt unexplained physical pain recently?",
    [("A", "Not at all – I haven\x27t experienced any such pain"),
     ("B", "Occasionally – I\x27ve felt some discomfort, but it\x27s rare and manageable"),
     ("C", "Frequently – These symptoms happen a few times a week and are noticeable"),
     ("D", "Almost daily – The physical discomfort is regular and affecting my routine")],
    ["pain", "ache", "headache", "discomfort", "physical", "body"],
    ["do you have any pain", "how\x27s your body feeling", "any physical discomfort"]⟩,
  ⟨11, Category.SOMATIC_COMPLAINTS,
    "Do you experience stomach issues during stress or deadlines?",
    [("A", "Rarely – My digestion stays the same regardless of stress"),
     ("B", "Sometimes – I notice mild symptoms when I\x27m under pressure"),
     ("C", "Often – My stomach tends to get upset during high-stress situations"),
     ("D", "Very frequently – I almost always experience digestive issues during deadlines")],
    ["stomach", "digestion", "stress", "deadline", "upset", "bloating"],
    ["how\x27s your stomach", "do you get digestive issues", "how do you feel during stress"]⟩,
  ⟨12, Category.SOMATIC_COMPLAINTS,
    "How often do you feel tired or physically drained?",
    [("A", "Almost never – I usually wake up refreshed and energized"),
     ("B", "Occasionally – I feel tired once in a while but bounce back quickly"),
     ("C", "Often – I feel low on energy most days, even without a clear reason"),
     ("D", "Almost always – I feel physically exhausted even when I\x27ve rested well")],
    ["tired", "energy", "drained", "exhausted", "rest", "sleep"],
    ["how\x27s your energy", "do you feel tired", "how do you feel after sleeping"]⟩]

/-- Initial Answer Store: every bank id mapped to None
(questionnaire.py constructor, last line). -/
def questionnaire_init_answers : AnswerStore :=
  questions.map (fun q => (q.id, none))

/-- Questions that have not been answered yet (questionnaire.py,
get_unanswered_questions). In every reachable store each bank id is present
as a key, so the Python expression current_answers[q.id] is None coincides
with the lookup below returning some none. -/
def get_unanswered_questions (store : AnswerStore) : List Question :=
  questions.filter (fun q => pyDictGet? store q.id == some none)

/-- One conversation history entry: the Python dict with keys role and
content appended by chatbot.py. -/
structure Msg where
  role : String
  content : String
deriving DecidableEq, Repr

/-- Python list slicing l[-n:]: the suffix of the last n entries
(the whole list when it is shorter than n). -/
def takeLast {α : Type} (n : Nat) (l : List α) : List α :=
  l.drop (l.length - n)

/-- Lowercase hexadecimal digit, used by the JSON unicode escapes. -/
def hexDigit (n : Nat) : Char :=
  if n < 10 then Char.ofNat (48 + n) else Char.ofNat (87 + n)

/-- A JSON unicode escape sequence for a 16-bit code unit. -/
def uEscape (n : Nat) : String :=
  String.mk [hexDigit (n / 4096 % 16), hexDigit (n / 256 % 16),
             hexDigit (n / 16 % 16), hexDigit (n % 16)] |> (fun h => "\\u" ++ h)

/-- Escape of one character inside a JSON string literal, following
Python json.dumps with its default ensure_ascii=True: printable ASCII kept,
quote and backslash escaped, named escapes for common controls, unicode
escapes (with surrogate pairs) for the rest. -/
def jsonEscapeChar (c : Char) : String :=
  if c == '"' then "\\\""
  else if c == '\\' then "\\\\"
  else if c == '\n' then "\\n"
  else if c == '\t' then "\\t"
  else if c == '\r' then "\\r"
  else if c == Char.ofNat 8 then "\\b"
  else if c == Char.ofNat 12 then "\\f"
  else if 32 ≤ c.toNat ∧ c.toNat ≤ 126 then String.mk [c]
  else if c.toNat < 65536 then uEscape c.toNat
  else
    uEscape (55296 + (c.toNat - 65536) / 1024) ++ uEscape (56320 + (c.toNat - 65536) % 1024)

/-- JSON escape of a whole string. -/
def jsonEscape (s : String) : String :=
  String.join (s.data.map jsonEscapeChar)

/-- A JSON string literal. -/
def jsonStr (s : String) : String :=
  "\"" ++ jsonEscape s ++ "\""

/-- Python json.dumps of a list of history entries, with the default
separators and the keys in their insertion order. -/
def jsonDumpsMsgs (l : List Msg) : String :=
  "[" ++ String.intercalate ", "
    (l.map (fun m =>
      "\x7b" ++ jsonStr "role" ++ ": " ++ jsonStr m.role ++ ", " ++
      jsonStr "content" ++ ": " ++ jsonStr m.content ++ "\x7d")) ++ "]"

/-- Python json.dumps of an options mapping. -/
def jsonDumpsOptions (opts : List (String × String)) : String :=
  "\x7b" ++ String.intercalate ", "
    (opts.map (fun p => jsonStr p.1 ++ ": " ++ jsonStr p.2)) ++ "\x7d"

/-- Outcome of one external generative-model call: the returned text, or an
exception of any kind raised by the call. -/
inductive GenResult where
  | ok (text : String)
  | error

/-- Behaviour of the external generative model. gen gives the outcome of
model.generate_content on a prompt (used by the single-question, follow-up
and next-prompt calls, which consume response.text directly). genBatch
models the batch-resolution call of analyze_all_unanswered combined with its
response decoding (chatbot.py: generate_content, the regex search for the
first braced block, json.loads, and the int conversion of the keys): its
result is the decoded mapping from int keys to string-or-null values, or
none when any step of that try block raises. -/
structure Oracle where
  gen : String → GenResult
  genBatch : String → Option (List (Int × Option String))

/-- Python whitespace test for str.strip, over the ASCII whitespace
characters; the additional unicode spaces Python strips make no difference
to any membership check in the four option letters. -/
def isPySpace (c : Char) : Bool :=
  c == ' ' ∨ c == '\t' ∨ c == '\n' ∨ c == '\r' ∨ c == Char.ofNat 11 ∨ c == Char.ofNat 12

/-- Python str.strip(): drop leading and trailing whitespace. -/
def pyStrip (s : String) : String :=
  String.mk (((s.data.dropWhile isPySpace).reverse.dropWhile isPySpace).reverse)

/-- ASCII uppercase of one character (Python str.upper on the letter range
relevant here). -/
def pyUpperChar (c : Char) : Char :=
  if 97 ≤ c.toNat ∧ c.toNat ≤ 122 then Char.ofNat (c.toNat - 32) else c

/-- Python response.text.strip().upper(). -/
def pyStripUpper (t : String) : String :=
  String.mk ((pyStrip t).data.map pyUpperChar)

/-- The prompt of analyze_single_question (chatbot.py lines 96-107),
built over the last six history entries. -/
def analyze_single_question_prompt (history : List Msg) (q : Question) : String :=
  let conversation_context := jsonDumpsMsgs (takeLast 6 history)
  "\nHere is the recent conversation:\n" ++ conversation_context ++
  "\n\nFor the following question:\n\"" ++ q.text ++
  "\"\nOptions: " ++ jsonDumpsOptions q.options ++
  "\n\nOnly return an answer if the user\x27s response is specific and provides enough detail to confidently select one option. If the response is vague, partial, or ambiguous, return None and do not infer an answer. If you return None, the bot will follow up for more detail.\nIf the user\x27s most recent reply clearly answers this question (based on the conversation context), return the best matching option letter (A, B, C, or D). If not, return None. Do NOT infer an answer from generic or unrelated statements.\n"

/-- Single-question resolution (chatbot.py, analyze_single_question). The
user_input parameter mirrors the Python signature; the prompt reads the
latest reply from the conversation history. -/
def analyze_single_question (o : Oracle) (user_input : String) (history : List Msg)
    (q : Question) : Option String :=
  let _ := user_input
  match o.gen (analyze_single_question_prompt history q) with
  | GenResult.error => none
  | GenResult.ok t =>
    let answer := pyStripUpper t
    if answer ∈ (["A", "B", "C", "D"] : List String) then some answer else none

/-- The block of unanswered questions inside the batch prompt. -/
def questions_block (qs : List Question) : String :=
  String.intercalate "\n"
    (qs.map (fun q => "Q" ++ toString q.id ++ ": " ++ q.text ++
      "\nOptions: " ++ jsonDumpsOptions q.options))

/-- The prompt of analyze_all_unanswered (chatbot.py lines 125-140). -/
def analyze_all_unanswered_prompt (history : List Msg) (unanswered : List Question) : String :=
  let conversation_context := jsonDumpsMsgs (takeLast 6 history)
  "\nHere is the recent conversation:\n" ++ conversation_context ++
  "\n\nFor each of these questions, only return an answer if the user\x27s response is specific and provides enough detail to confidently select one option. If the response is vague, partial, or ambiguous, return None and do not infer an answer. If you return None, the bot will follow up for more detail.\nIf the user\x27s most recent reply clearly answers the question (based on the conversation context), return the question number and the best matching option letter (A, B, C, or D). If not, return None for that question. Do NOT infer an answer from generic or unrelated statements.\n\nQuestions:\n" ++
  questions_block unanswered ++
  "\n\nReturn your answer as a JSON object mapping question numbers to option letters or null. Example: \x7b\"1\": \"A\", \"2\": null, ...\x7d\n"

/-- Batch resolution (chatbot.py, analyze_all_unanswered): empty result when
there is nothing to ask or when the call or its decoding fails, otherwise
the decoded mapping filtered by Python truthiness of the value and
membership in the four option letters, rebuilt as a dict. -/
def analyze_all_unanswered (o : Oracle) (history : List Msg) (store : AnswerStore) :
    PyDict String :=
  let unanswered := get_unanswered_questions store
  if unanswered.isEmpty then []
  else
    match o.genBatch (analyze_all_unanswered_prompt history unanswered) with
    | none => []
    | some answers =>
      pyDictOf (answers.filterMap (fun p =>
        match p.2 with
        | none => none
        | some v => if !(v == "") ∧ v ∈ (["A", "B", "C", "D"] : List String)
                    then some (p.1, v) else none))

/-- The prompt of generate_followup (chatbot.py lines 165-181); the context
argument is the slice of history passed by the caller. The attempt count is
read by the Python function but never interpolated into the prompt. -/
def generate_followup_prompt (q : Question) (context : List Msg) (user_reply : String) : String :=
  "\nYou are a warm, empathetic mental health chatbot. The user gave a vague or partial answer to this question:\n\"" ++
  q.text ++ "\"\n\nHere is the recent conversation:\n" ++ jsonDumpsMsgs context ++
  "\n\nThe user\x27s last reply was: \"" ++ user_reply ++
  "\"\n\nGenerate a natural, empathetic follow-up question that gently asks for more detail, using the user\x27s own words if possible. Vary your style based on how many times you\x27ve already followed up:\n- First follow-up: be encouraging and curious, e.g., \"Could you share a bit more about...\"\n- Second follow-up: be more specific or offer examples, e.g., \"Would you say it happens most days, or just occasionally?\"\n- Third or more: acknowledge if the user doesn\x27t want to answer, offer to skip, or gently move on.\nAlways start with a brief empathetic statement or reflection.\nIf the user seems uncomfortable, offer to skip the question (e.g., \"If you\x27d rather not answer, that\x27s completely okay.\")\nReturn ONLY the follow-up message.\n"

/-- The fixed fallback follow-up returned when the external call fails. -/
def followup_fallback : String :=
  "Could you share a bit more about that? (If you\x27d rather not answer, that\x27s okay.)"

/-- Follow-up generation (chatbot.py, generate_followup). -/
def generate_followup (o : Oracle) (q : Question) (context : List Msg)
    (user_reply : String) : String :=
  match o.gen (generate_followup_prompt q context user_reply) with
  | GenResult.ok t => pyStrip t
  | GenResult.error => followup_fallback

/-- The prompt of get_next_prompt (chatbot.py lines 273-284), over the last
six history entries and the texts of the chosen group. -/
def get_next_prompt_text (history : List Msg) (group : List Question) : String :=
  let conversation_context := takeLast 6 history
  "\nYou are a warm, conversational mental health chatbot. Your primary goal is to listen, understand, and make the user feel heard.\n\nHere is the recent conversation:\n" ++
  jsonDumpsMsgs conversation_context ++
  "\n\nBe empapthetic in your response, and consider the message history. If appropriate, gently transition to a new, related line of inquiry based on these topics you want to learn about:\n" ++
  String.intercalate "\n" (group.map (fun q => q.text)) ++
  "\n\nCombine the reflection and the next question into a single, natural, and supportive message. Do NOT list the questions. Use simple, everyday language. Do not sound robotic.\nReturn ONLY the message.\n"

/-- The fixed fallback next-prompt returned when the external call fails. -/
def next_prompt_fallback : String :=
  "Could you tell me a bit about how you\x27ve been feeling and your daily routine?"

/-- Group prompt generation (chatbot.py, get_next_prompt). -/
def get_next_prompt (o : Oracle) (history : List Msg) (group : List Question) : String :=
  match o.gen (get_next_prompt_text history group) with
  | GenResult.ok t => pyStrip t
  | GenResult.error => next_prompt_fallback

/-- The defaultdict(list) grouping loop of get_next_unanswered_group:
entries appear in the order their category is first encountered, and each
entry accumulates its questions in list order. -/
def groupByCategory (l : List Question) : List (Category × List Question) :=
  l.foldl (fun m q =>
    if m.any (fun p => p.1 == q.category) then
      m.map (fun p => if p.1 == q.category then (p.1, p.2 ++ [q]) else p)
    else m ++ [(q.category, [q])]) []

/-- Python max(groups, key=len): the first group attaining the maximal
length, found by keeping the current best and replacing it only on a
strictly greater length. Defined on a head and tail since Python max on an
empty sequence raises (the caller guards against the empty case). -/
def pyMaxByLen (g : List Question) (gs : List (List Question)) : List Question :=
  gs.foldl (fun best x => if x.length > best.length then x else best) g

/-- Group selection (chatbot.py, get_next_unanswered_group): the largest
same-category group of unanswered questions, limited to 3, or the single
globally-first unanswered question when no group has more than one member. -/
def get_next_unanswered_group (store : AnswerStore) : List Question :=
  match get_unanswered_questions store with
  | [] => []
  | u :: rest =>
    let cat_map := groupByCategory (u :: rest)
    let best_group :=
      match cat_map.map (fun p => p.2) with
      | [] => []
      | g :: gs => pyMaxByLen g gs
    if best_group.length > 1 then best_group.take 3
    else [u]

/-- The mutable session state of QuestionnaireChatbot together with the
Answer Store of its Questionnaire. -/
structure ChatState where
  history : List Msg
  last_pursued_question_ids : Option (List Int)
  pending_followup : Option String
  followup_attempts : PyDict Int
  store : AnswerStore
deriving Repr

/-- The fresh session state built by the QuestionnaireChatbot constructor. -/
def initial_state : ChatState :=
  ⟨[], none, none, [], questionnaire_init_answers⟩

/-- Accumulator of the pursued-question loop in process_user_reply. -/
structure PursuedResult where
  answered : PyDict String
  attempts : PyDict Int
  pending : Option String
  any_answered : Bool
deriving Repr

/-- One iteration of the pursued-question loop (chatbot.py lines 241-252):
skip questions already answered in the store; on a confident match record
the answer and reset the attempt counter; otherwise, when no follow-up is
queued yet, bump the attempt counter and queue a generated follow-up. -/
def resolve_pursued_step (o : Oracle) (history : List Msg) (user_input : String)
    (store : AnswerStore) (acc : PursuedResult) (q : Question) : PursuedResult :=
  if pyDictGet? store q.id == some none then
    match analyze_single_question o user_input history q with
    | some answer =>
      ⟨pyDictSet acc.answered q.id answer, pyDictSet acc.attempts q.id 0,
       acc.pending, true⟩
    | none =>
      if pyTruthyStrOpt acc.pending then acc
      else
        ⟨acc.answered,
         pyDictSet acc.attempts q.id (pyDictGetD acc.attempts q.id 0 + 1),
         some (generate_followup o q (takeLast 6 history) user_input),
         acc.any_answered⟩
  else acc

/-- The pursued-question resolution phase of a turn: the loop of
resolve_pursued_step over the bank questions whose id is in the pursuit
set, in bank order. -/
def resolve_pursued (o : Oracle) (history : List Msg) (user_input : String)
    (store : AnswerStore) (pursued_ids : List Int) (attempts0 : PyDict Int)
    (pending0 : Option String) : PursuedResult :=
  let pursued_questions := questions.filter (fun q => decide (q.id ∈ pursued_ids))
  pursued_questions.foldl (resolve_pursued_step o history user_input store)
    ⟨[], attempts0, pending0, false⟩

/-- Outcome of the pursued-resolution block of process_user_reply, after
the success check of chatbot.py lines 255-257: the answer dict, the attempt
counters, the surviving pending follow-up and the surviving pursuit set. -/
def process_step1A (s : ChatState) (r : PursuedResult) :
    PyDict String × PyDict Int × Option String × Option (List Int) :=
  if r.any_answered then
    (r.answered, r.attempts, (none : Option String), (none : Option (List Int)))
  else (r.answered, r.attempts, r.pending, s.last_pursued_question_ids)

/-- The first half of process_user_reply (chatbot.py lines 238-257): when a
truthy pursuit set exists, run the pursued-question loop and on any success
clear the pursuit set and the queued follow-up; otherwise pass the state
through unchanged with no answers. -/
def process_step1 (o : Oracle) (s : ChatState) (history : List Msg) (user_input : String) :
    PyDict String × PyDict Int × Option String × Option (List Int) :=
  if pyTruthyListOpt s.last_pursued_question_ids then
    process_step1A s (resolve_pursued o history user_input s.store
      (s.last_pursued_question_ids.getD []) s.followup_attempts s.pending_followup)
  else ([], s.followup_attempts, s.pending_followup, s.last_pursued_question_ids)

/-- The second half of process_user_reply (chatbot.py lines 259-266): when
nothing was resolved by pursuit, clear any queued follow-up and merge in the
batch-resolution answers. -/
def process_step2 (o : Oracle) (history : List Msg) (store : AnswerStore)
    (step1 : PyDict String × PyDict Int × Option String × Option (List Int)) :
    PyDict String × ChatState :=
  if step1.1.isEmpty then
    let batch := analyze_all_unanswered o history store
    let answered2 := batch.foldl (fun d p => pyDictSet d p.1 p.2) step1.1
    (answered2, ⟨history, step1.2.2.2, none, step1.2.1, store⟩)
  else
    (step1.1, ⟨history, step1.2.2.2, step1.2.2.1, step1.2.1, store⟩)

/-- Turn processing (chatbot.py, process_user_reply): append the user
message; if pursuing, run single-question resolution over the pursued set
and on any success clear the pursuit set and the queued follow-up; if
nothing was resolved, clear any queued follow-up and fall back to batch
resolution over all unanswered questions. Returns the resolved
(question id, letter) dict and the updated session state; the Answer Store
itself is written later by the caller (app.py). -/
def process_user_reply (o : Oracle) (s : ChatState) (user_input : String) :
    PyDict String × ChatState :=
  process_step2 o (s.history ++ [⟨"user", user_input⟩]) s.store
    (process_step1 o s (s.history ++ [⟨"user", user_input⟩]) user_input)

/-- The fixed completion message of the closing branch. -/
def completion_message : String :=
  "Thank you for sharing all of this with me! Your assessment is complete. You can view the full report in the \x27Questionnaire\x27 tab now."

/-- Response generation (chatbot.py, the method named with a leading
underscore, _generate_response): emit and consume a queued truthy follow-up;
otherwise pick the next unanswered group, record its ids as the new pursuit
set and ask for a combined prompt; when nothing is unanswered emit the fixed
completion message. The produced message is appended to the history. -/
def generate_response (o : Oracle) (s : ChatState) : String × ChatState :=
  if pyTruthyStrOpt s.pending_followup then
    let response := s.pending_followup.getD ""
    (response,
     { s with pending_followup := none,
              history := s.history ++ [⟨"assistant", response⟩] })
  else
    match get_next_unanswered_group s.store with
    | [] =>
      (completion_message,
       { s with history := s.history ++ [⟨"assistant", completion_message⟩] })
    | g =>
      let response := get_next_prompt o s.history g
      (response,
       { s with last_pursued_question_ids := some (g.map (fun q => q.id)),
                history := s.history ++ [⟨"assistant", response⟩] })

/-- The Answer Store update loop of app.py handle_user_message (lines
299-301): every resolved pair is written with source avika. -/
def apply_answers (store : AnswerStore) (answers : PyDict String) : AnswerStore :=
  answers.foldl (fun st p => pyDictSet st p.1 (some ⟨p.2, "avika"⟩)) store

/-- The session state after the processing half of a submitted message:
process_user_reply followed by the Answer Store update (app.py,
handle_user_message, before the response is generated). -/
def post_process_state (o : Oracle) (s : ChatState) (user_message : String) : ChatState :=
  let pr := process_user_reply o s user_message
  { pr.2 with store := apply_answers pr.2.store pr.1 }

/-- A full submitted-message turn (app.py, handle_user_message):
process the reply, apply the resolved answers, then generate the next
assistant message. -/
def handle_user_message (o : Oracle) (s : ChatState) (user_message : String) :
    String × ChatState :=
  generate_response o (post_process_state o s user_message)

/-- The direct user-selection write (app.py, create_on_select /
on_select_callback): store the chosen letter for the question with source
user, touching nothing else. -/
def on_select_callback (s : ChatState) (question_id : Int) (selected_answer : String) :
    ChatState :=
  { s with store := pyDictSet s.store question_id (some ⟨selected_answer, "user"⟩) }

/-- Python ord of a string: the code of its only character; a string whose
length is not one raises, modelled as none. -/
def pyOrd (s : String) : Option Nat :=
  match s.data with
  | [c] => some c.toNat
  | _ => none

/-- One step of the scoring loop of get_category_score: unanswered
questions are skipped, an answered question contributes
ord of D minus ord of its letter plus one; a missing key or a letter that is
not a single character would raise, modelled as none. -/
def score_step (store : AnswerStore) (acc : Option (Int × Nat)) (q : Question) :
    Option (Int × Nat) :=
  match acc with
  | none => none
  | some (total, count) =>
    match pyDictGet? store q.id with
    | none => none
    | some none => some (total, count)
    | some (some ad) =>
      match pyOrd ad.answer with
      | none => none
      | some c => some (total + ((68 : Int) - (c : Int) + 1), count + 1)

/-- Category score (questionnaire.py, get_category_score): the average of
per-letter scores over the answered questions of the category, 0 when the
category has no questions or none are answered. Python float division is
modelled exactly over the rationals; none models a raised exception. -/
def get_category_score (store : AnswerStore) (cat : Category) : Option ℚ :=
  let category_questions := questions.filter (fun q => decide (q.category = cat))
  if category_questions.isEmpty then some 0
  else
    match category_questions.foldl (score_step store) (some (0, 0)) with
    | none => none
    | some (total, count) =>
      some (if count > 0 then (total : ℚ) / (count : ℚ) else 0)

/-- Completion percentage (questionnaire.py, get_completion_percentage):
the share of non-null values of the Answer Store over the bank size, times
100, with float division modelled exactly over the rationals. -/
def get_completion_percentage (store : AnswerStore) : ℚ :=
  let answered := (pyDictValues store).countP (fun a => decide (a ≠ none))
  ((answered : ℚ) / (questions.length : ℚ)) * 100

/-- Specification-side rendering, for claim C3: the categories of a list of
questions in first-encounter order. -/
def encounter_categories (l : List Question) : List Category :=
  l.foldl (fun acc q => if q.category ∈ acc then acc else acc ++ [q.category]) []

/-- Specification-side rendering, for claim C3: the category groups of the
unanswered questions, in category encounter order, each group in
enumeration order. -/
def spec_groups (l : List Question) : List (List Question) :=
  (encounter_categories l).map (fun c => l.filter (fun q => decide (q.category = c)))

/-- Specification-side rendering, for claim C3: the first group whose size
is at least that of every group, that is the largest group with ties broken
by encounter order. -/
def spec_largest_group (gs : List (List Question)) : List Question :=
  ((gs.find? (fun g => gs.all (fun g2 => g2.length ≤ g.length))).getD [])

/-- Specification-side rendering of the C3 sentence: the up-to-3-element
prefix of the largest category group of unanswered questions, ties between
equally large categories broken by encounter order; when no category holds
more than one unanswered question, the singleton of the globally-first
unanswered question. -/
def spec_next_group (store : AnswerStore) : List Question :=
  match get_unanswered_questions store with
  | [] => []
  | u :: rest =>
    let gs := spec_groups (u :: rest)
    if gs.all (fun g => g.length ≤ 1) then [u]
    else (spec_largest_group gs).take 3

/-- Specification-side rendering, for claim C7: the number of non-null
answers in the store. -/
def spec_answered_count (store : AnswerStore) : Nat :=
  (store.map (fun p => p.2)).countP (fun a => a.isSome)

/-- Specification-side rendering, for claim C6: the letters of the answered
questions among a list of questions, in list order. -/
def spec_letters (store : AnswerStore) (L : List Question) : List String :=
  L.filterMap (fun q => ((pyDictGet? store q.id).join).map (fun ad => ad.answer))

/-- Specification-side rendering, for claim C6: the letters of the answered
questions of a category, in bank order. -/
def spec_answered_letters (store : AnswerStore) (cat : Category) : List String :=
  spec_letters store (questions.filter (fun q => decide (q.category = cat)))

/-- Integer form of the per-letter score, ord of D minus ord of the letter
plus one. -/
def spec_letter_score_int (s : String) : Int :=
  match pyOrd s with
  | some c => (68 : Int) - (c : Int) + 1
  | none => 0

/-- Specification-side rendering, for claim C6: the per-letter score
ord of D minus ord of the letter plus one, as a rational. -/
def spec_letter_score (s : String) : ℚ :=
  match pyOrd s with
  | some c => (68 : ℚ) - (c : ℚ) + 1
  | none => 0

/-- Specification-side rendering of the C6 sentence: the arithmetic mean of
the per-letter scores over the answered questions of the category, 0 when
none are answered. -/
def spec_category_mean (store : AnswerStore) (cat : Category) : ℚ :=
  let letters := spec_answered_letters store cat
  if letters.isEmpty then 0
  else (letters.map spec_letter_score).sum / (letters.length : ℚ)

/-- A concrete oracle whose every external call fails. -/
def oracle_fail : Oracle :=
  ⟨fun _ => GenResult.error, fun _ => none⟩

/-- A concrete oracle whose every text call returns the letter A and whose
batch call decodes to the empty mapping. -/
def oracle_all_A : Oracle :=
  ⟨fun _ => GenResult.ok "A", fun _ => some []⟩

/-- A concrete oracle whose batch call decodes to a reply answering
question 1 with A; text calls fail. -/
def oracle_batch_q1 : Oracle :=
  ⟨fun _ => GenResult.error, fun _ => some [(1, some "A")]⟩

/-- A concrete oracle whose batch call decodes to a reply naming the
unknown question id 99; text calls fail. -/
def oracle_batch_q99 : Oracle :=
  ⟨fun _ => GenResult.error, fun _ => some [(99, some "A")]⟩

/-- A fresh session that is currently pursuing question 1. -/
def state_pursuing_q1 : ChatState :=
  { initial_state with last_pursued_question_ids := some [1] }

/-- A fresh session whose follow-up attempt counter for question 1 is 2. -/
def state_attempts_q1 : ChatState :=
  { initial_state with followup_attempts := [(1, 2)] }

/-- A concrete store with questions 1, 4 and 5 answered by the assistant. -/
def store_example : AnswerStore :=
  apply_answers questionnaire_init_answers [(1, "A"), (4, "A"), (5, "B")]

/-- A concrete seven-entry conversation history. -/
def history7 : List Msg :=
  [⟨"user", "m1"⟩, ⟨"assistant", "m2"⟩, ⟨"user", "m3"⟩, ⟨"assistant", "m4"⟩,
   ⟨"user", "m5"⟩, ⟨"assistant", "m6"⟩, ⟨"user", "m7"⟩]

/-- The six-entry suffix of history7, as an independent history. -/
def history6 : List Msg :=
  [⟨"assistant", "m2"⟩, ⟨"user", "m3"⟩, ⟨"assistant", "m4"⟩,
   ⟨"user", "m5"⟩, ⟨"assistant", "m6"⟩, ⟨"user", "m7"⟩]

/-- Looking up the key just written returns the written value. -/
theorem pyDictGet?_pyDictSet_self {α : Type} (d : PyDict α) (k : Int) (v : α) :
    pyDictGet? (pyDictSet d k v) k = some v := by
  induction d with
  | nil => simp [pyDictSet, pyDictGet?]
  | cons p rest ih =>
    by_cases h : p.1 = k
    · simp [pyDictSet, pyDictGet?, h]
    · simp [pyDictSet, pyDictGet?, h, ih]

/-- Writing one key leaves every other lookup unchanged. -/
theorem pyDictGet?_pyDictSet_ne {α : Type} (d : PyDict α) (k k' : Int) (v : α)
    (h : k' ≠ k) : pyDictGet? (pyDictSet d k v) k' = pyDictGet? d k' := by
  have h' : ¬(k = k') := fun hh => h hh.symm
  induction d with
  | nil => simp [pyDictSet, pyDictGet?, h']
  | cons p rest ih =>
    by_cases hpk : p.1 = k
    · simp [pyDictSet, pyDictGet?, hpk, h']
    · simp only [pyDictSet, beq_iff_eq, hpk, if_false, pyDictGet?]
      by_cases hpk' : p.1 = k'
      · simp [hpk']
      · simp [hpk', ih]

/-- Claim C10: the direct user-selection write stores the chosen letter for
the chosen question with source user, and changes nothing else: the
conversation history, the pursuit set, the pending follow-up, the attempt
counters and every other answer are untouched. -/
theorem C10_user_select_frame (s : ChatState) (question_id : Int) (selected_answer : String) :
    pyDictGet? (on_select_callback s question_id selected_answer).store question_id
      = some (some ⟨selected_answer, "user"⟩) ∧
    (on_select_callback s question_id selected_answer).history = s.history ∧
    (on_select_callback s question_id selected_answer).last_pursued_question_ids
      = s.last_pursued_question_ids ∧
    (on_select_callback s question_id selected_answer).pending_followup = s.pending_followup ∧
    (on_select_callback s question_id selected_answer).followup_attempts = s.followup_attempts ∧
    ∀ k : Int, k ≠ question_id →
      pyDictGet? (on_select_callback s question_id selected_answer).store k
        = pyDictGet? s.store k := by
  refine ⟨?_, rfl, rfl, rfl, rfl, ?_⟩
  · exact pyDictGet?_pyDictSet_self s.store question_id (some ⟨selected_answer, "user"⟩)
  · intro k hk
    exact pyDictGet?_pyDictSet_ne s.store question_id k _ hk

/-- Witness for C10 at question 1 and letter A on a fresh session. -/
theorem C10_user_select_frame_witness :
    pyDictGet? (on_select_callback initial_state 1 "A").store 1
      = some (some ⟨"A", "user"⟩) ∧
    pyDictGet? (on_select_callback initial_state 1 "A").store 2
      = pyDictGet? initial_state.store 2 :=
  ⟨(C10_user_select_frame initial_state 1 "A").1,
   (C10_user_select_frame initial_state 1 "A").2.2.2.2.2 2 (by decide)⟩

/-- Claim C7: the completion percentage is always 100 times the number of
non-null answers in the store divided by the total question count, which
is 12. -/
theorem C7_completion_percentage (store : AnswerStore) :
    get_completion_percentage store = 100 * (spec_answered_count store : ℚ) / 12 ∧
    questions.length = 12 := by
  constructor
  · have hcount : (pyDictValues store).countP (fun a => decide (a ≠ none))
        = spec_answered_count store := by
      unfold pyDictValues spec_answered_count
      refine List.countP_congr ?_
      intro a _
      cases a <;> simp
    have hlen : questions.length = 12 := rfl
    unfold get_completion_percentage
    rw [hcount, hlen]
    push_cast
    ring
  · rfl

/-- Claim C9: the three extractor prompt builders read the conversation
history only through the suffix of its last six entries: two histories
agreeing there produce identical single-question, batch and follow-up
prompts for the same question, unanswered set and user input. -/
theorem C9_prompts_depend_on_last6 (h1 h2 : List Msg) (q : Question)
    (unanswered : List Question) (user_reply : String)
    (hEq : takeLast 6 h1 = takeLast 6 h2) :
    analyze_single_question_prompt h1 q = analyze_single_question_prompt h2 q ∧
    analyze_all_unanswered_prompt h1 unanswered = analyze_all_unanswered_prompt h2 unanswered ∧
    generate_followup_prompt q (takeLast 6 h1) user_reply
      = generate_followup_prompt q (takeLast 6 h2) user_reply := by
  unfold analyze_single_question_prompt analyze_all_unanswered_prompt
  rw [hEq]
  exact ⟨rfl, rfl, rfl⟩

/-- Witness for C9 on a seven-entry history against its six-entry suffix. -/
theorem C9_prompts_depend_on_last6_witness :
    analyze_single_question_prompt history7 ⟨1, Category.APPEARANCE_AWARENESS, "t", [], [], []⟩
      = analyze_single_question_prompt history6 ⟨1, Category.APPEARANCE_AWARENESS, "t", [], [], []⟩ :=
  (C9_prompts_depend_on_last6 history7 history6 _ [] "r" (by decide)).1

/-- If one step of the pursued-question loop ends with the any-answered
flag still false, then the step did not touch the accumulated answers; in
particular an empty answer dict stays empty. -/
theorem resolve_pursued_step_answered_empty (o : Oracle) (history : List Msg)
    (user_input : String) (store : AnswerStore) (q : Question) (acc : PursuedResult)
    (h : acc.any_answered = false → acc.answered = []) :
    (resolve_pursued_step o history user_input store acc q).any_answered = false →
    (resolve_pursued_step o history user_input store acc q).answered = [] := by
  unfold resolve_pursued_step
  split
  · cases analyze_single_question o user_input history q with
    | some a => intro hx; simp at hx
    | none =>
      simp only
      split
      · exact h
      · intro hx; exact h hx
  · exact h

/-- Over the whole pursued-question loop: if no question was answered, the
answer dict is empty. -/
theorem resolve_loop_answered_empty (o : Oracle) (history : List Msg)
    (user_input : String) (store : AnswerStore) (L : List Question) (acc : PursuedResult)
    (h : acc.any_answered = false → acc.answered = []) :
    (L.foldl (resolve_pursued_step o history user_input store) acc).any_answered = false →
    (L.foldl (resolve_pursued_step o history user_input store) acc).answered = [] := by
  induction L generalizing acc with
  | nil => exact h
  | cons q L ih =>
    intro hx
    exact ih (resolve_pursued_step o history user_input store acc q)
      (resolve_pursued_step_answered_empty o history user_input store q acc h) hx

/-- If the pursued-question phase answered nothing, its answer dict is
empty. -/
theorem resolve_pursued_answered_empty (o : Oracle) (history : List Msg)
    (user_input : String) (store : AnswerStore) (pursued_ids : List Int)
    (attempts0 : PyDict Int) (pending0 : Option String)
    (h : (resolve_pursued o history user_input store pursued_ids attempts0 pending0).any_answered
         = false) :
    (resolve_pursued o history user_input store pursued_ids attempts0 pending0).answered = [] := by
  unfold resolve_pursued at h ⊢
  exact resolve_loop_answered_empty o history user_input store _ _ (fun _ => rfl) h

/-- The pursued block keeps a pending follow-up only when it answered
nothing, in which case its answer dict is empty: so a non-empty answer dict
forces the surviving pending follow-up to be None. -/
theorem process_step1A_pending_of_ne (s : ChatState) (r : PursuedResult)
    (hr : r.any_answered = false → r.answered = []) :
    (process_step1A s r).1 ≠ [] → (process_step1A s r).2.2.1 = none := by
  unfold process_step1A
  by_cases ha : r.any_answered = true
  · simp [ha]
  · simp only [Bool.not_eq_true] at ha
    simp only [ha, Bool.false_eq_true, if_false]
    intro hne
    exact absurd (hr ha) hne

/-- The first half of a turn yields a pending follow-up only alongside an
empty answer dict. -/
theorem process_step1_pending_of_ne (o : Oracle) (s : ChatState) (history : List Msg)
    (user_input : String) :
    (process_step1 o s history user_input).1 ≠ [] →
    (process_step1 o s history user_input).2.2.1 = none := by
  unfold process_step1
  split
  · exact process_step1A_pending_of_ne s _
      (resolve_pursued_answered_empty o history user_input s.store
        (s.last_pursued_question_ids.getD []) s.followup_attempts s.pending_followup)
  · intro h
    exact absurd rfl h

/-- The second half of a turn always ends with pending follow-up None,
given that a surviving pending follow-up comes only with an empty answer
dict. -/
theorem process_step2_pending (o : Oracle) (history : List Msg) (store : AnswerStore)
    (a : PyDict String) (att : PyDict Int) (p : Option String) (ps : Option (List Int))
    (h : a ≠ [] → p = none) :
    (process_step2 o history store (a, att, p, ps)).2.pending_followup = none := by
  unfold process_step2
  by_cases he : a.isEmpty = true
  · simp [he]
  · have ha : a ≠ [] := by
      cases a with
      | nil => simp at he
      | cons x xs => simp
    simp [he, h ha]

/-- The second half of a turn passes the surviving pursuit set through
unchanged. -/
theorem process_step2_pursued (o : Oracle) (history : List Msg) (store : AnswerStore)
    (a : PyDict String) (att : PyDict Int) (p : Option String) (ps : Option (List Int)) :
    (process_step2 o history store (a, att, p, ps)).2.last_pursued_question_ids = ps := by
  unfold process_step2
  split <;> rfl

/-- Claim C2: after process_user_reply returns, the pending follow-up is
always None — it is cleared on a successful pursued resolution and cleared
again when nothing was resolved — so the state entering the response
generation of the submit-message flow never takes the follow-up branch and
a queued follow-up is never emitted. -/
theorem C2_followup_never_survives (o : Oracle) (s : ChatState) (user_input : String) :
    (process_user_reply o s user_input).2.pending_followup = none ∧
    (post_process_state o s user_input).pending_followup = none ∧
    pyTruthyStrOpt (post_process_state o s user_input).pending_followup = false := by
  have h1 : (process_user_reply o s user_input).2.pending_followup = none := by
    unfold process_user_reply
    have hprop := process_step1_pending_of_ne o s (s.history ++ [⟨"user", user_input⟩]) user_input
    rcases hstep : process_step1 o s (s.history ++ [⟨"user", user_input⟩]) user_input
      with ⟨a, att, p, ps⟩
    rw [hstep] at hprop
    rw [hstep]
    exact process_step2_pending o _ s.store a att p ps (by simpa using hprop)
  refine ⟨h1, ?_, ?_⟩
  · unfold post_process_state
    simpa using h1
  · unfold post_process_state
    simp [pyTruthyStrOpt, h1]

/-- Claim C1: with a non-empty pursuit set, if the pursued-question
resolution step resolves at least one pursued question this turn, then the
pursuit set is cleared and the follow-up generated earlier in the same turn
is discarded: the state reaching response generation carries no pending
follow-up, so the follow-up branch is not taken and the emitted assistant
message is not the queued follow-up. -/
theorem C1_resolution_beats_followup (o : Oracle) (s : ChatState) (user_input : String)
    (hp : pyTruthyListOpt s.last_pursued_question_ids = true)
    (hany : (resolve_pursued o (s.history ++ [⟨"user", user_input⟩]) user_input s.store
        (s.last_pursued_question_ids.getD []) s.followup_attempts
        s.pending_followup).any_answered = true) :
    (process_user_reply o s user_input).2.last_pursued_question_ids = none ∧
    (process_user_reply o s user_input).2.pending_followup = none ∧
    pyTruthyStrOpt (post_process_state o s user_input).pending_followup = false := by
  have hstep : process_step1 o s (s.history ++ [⟨"user", user_input⟩]) user_input
      = ((resolve_pursued o (s.history ++ [⟨"user", user_input⟩]) user_input s.store
          (s.last_pursued_question_ids.getD []) s.followup_attempts
          s.pending_followup).answered,
         (resolve_pursued o (s.history ++ [⟨"user", user_input⟩]) user_input s.store
          (s.last_pursued_question_ids.getD []) s.followup_attempts
          s.pending_followup).attempts, none, none) := by
    unfold process_step1 process_step1A
    rw [if_pos hp, if_pos hany]
  have h2 : (process_user_reply o s user_input).2.pending_followup = none := by
    unfold process_user_reply
    rw [hstep]
    exact process_step2_pending o _ s.store _ _ _ _ (fun _ => rfl)
  refine ⟨?_, h2, ?_⟩
  · unfold process_user_reply
    rw [hstep]
    exact process_step2_pursued o _ s.store _ _ _ _
  · unfold post_process_state
    simp [pyTruthyStrOpt, h2]

/-- Witness for C1: a fresh session pursuing question 1, with an oracle that
answers A to every text call, resolves question 1 and ends the turn with the
pursuit set and the pending follow-up cleared. -/
theorem C1_resolution_beats_followup_witness :
    (process_user_reply oracle_all_A state_pursuing_q1 "hello").2.last_pursued_question_ids
      = none ∧
    (process_user_reply oracle_all_A state_pursuing_q1 "hello").2.pending_followup = none := by
  have h := C1_resolution_beats_followup oracle_all_A state_pursuing_q1 "hello"
    (by decide) (by decide)
  exact ⟨h.1, h.2.1⟩

/-- Every entry of an updated dict is an old entry or the written pair. -/
theorem mem_pyDictSet {α : Type} (d : PyDict α) (k : Int) (v : α) (p : Int × α) :
    p ∈ pyDictSet d k v → p ∈ d ∨ p = (k, v) := by
  induction d with
  | nil => intro h; simpa [pyDictSet] using h
  | cons q rest ih =>
    intro h
    by_cases hq : q.1 = k
    · simp only [pyDictSet, beq_iff_eq, hq, if_true, List.mem_cons] at h
      rcases h with h | h
      · right; exact h
      · left; exact List.mem_cons_of_mem q h
    · simp only [pyDictSet, beq_iff_eq, hq, if_false, List.mem_cons] at h
      rcases h with h | h
      · left
        rw [h]
        exact List.mem_cons_self q rest
      · rcases ih h with h2 | h2
        · left; exact List.mem_cons_of_mem q h2
        · right; exact h2

/-- Every entry of a dict built from a list of pairs is one of those pairs. -/
theorem mem_pyDictOf {α : Type} (l : List (Int × α)) (p : Int × α)
    (h : p ∈ pyDictOf l) : p ∈ l := by
  suffices haux : ∀ (l : List (Int × α)) (acc : PyDict α),
      p ∈ l.foldl (fun d q => pyDictSet d q.1 q.2) acc → p ∈ acc ∨ p ∈ l by
    rcases haux l [] h with h2 | h2
    · simp at h2
    · exact h2
  intro l
  induction l with
  | nil => intro acc hm; left; simpa using hm
  | cons q rest ih =>
    intro acc hm
    rcases ih (pyDictSet acc q.1 q.2) hm with h2 | h2
    · rcases mem_pyDictSet acc q.1 q.2 p h2 with h3 | h3
      · left; exact h3
      · right
        rw [h3]
        exact List.mem_cons_self _ _
    · right; exact List.mem_cons_of_mem q h2

/-- Claim C8: the extractor operations fail open for every oracle
behaviour: single-question resolution yields None or a letter among the
four options; batch resolution yields only letters among the four options
and the empty mapping when its call or decoding fails; follow-up and
next-prompt generation yield their fixed deterministic fallback strings on
failure. Totality of the embedded functions models that no exception
escapes the call sites. -/
theorem C8_extractors_fail_open (o : Oracle) (history : List Msg) (store : AnswerStore)
    (q : Question) (user_input : String) (context : List Msg) (group : List Question) :
    (∀ l, analyze_single_question o user_input history q = some l →
      l ∈ (["A", "B", "C", "D"] : List String)) ∧
    (∀ p ∈ analyze_all_unanswered o history store,
      p.2 ∈ (["A", "B", "C", "D"] : List String)) ∧
    (o.genBatch (analyze_all_unanswered_prompt history (get_unanswered_questions store)) = none →
      analyze_all_unanswered o history store = []) ∧
    (o.gen (generate_followup_prompt q context user_input) = GenResult.error →
      generate_followup o q context user_input = followup_fallback) ∧
    (o.gen (get_next_prompt_text history group) = GenResult.error →
      get_next_prompt o history group = next_prompt_fallback) := by
  refine ⟨?_, ?_, ?_, ?_, ?_⟩
  · intro l hl
    unfold analyze_single_question at hl
    cases hgen : o.gen (analyze_single_question_prompt history q) with
    | error => rw [hgen] at hl; simp at hl
    | ok t =>
      rw [hgen] at hl
      simp only at hl
      split at hl
      · rename_i hmem
        cases hl
        simpa using hmem
      · simp at hl
  · intro p hp
    simp only [analyze_all_unanswered] at hp
    split at hp
    · simp at hp
    · cases hbatch : o.genBatch (analyze_all_unanswered_prompt history
        (get_unanswered_questions store)) with
      | none => rw [hbatch] at hp; simp at hp
      | some answers =>
        rw [hbatch] at hp
        simp only at hp
        have hmem := mem_pyDictOf _ _ hp
        rcases List.mem_filterMap.1 hmem with ⟨a, _, ha⟩
        cases hv : a.2 with
        | none => rw [hv] at ha; simp at ha
        | some v =>
          rw [hv] at ha
          simp only at ha
          split at ha
          · rename_i hcond
            have hpv : (a.1, v) = p := by injection ha
            subst hpv
            simpa using hcond.2
          · simp at ha
  · intro hfail
    simp only [analyze_all_unanswered]
    split
    · rfl
    · rw [hfail]
  · intro hfail
    unfold generate_followup
    rw [hfail]
  · intro hfail
    unfold get_next_prompt
    rw [hfail]

/-- Witness for C8: with the all-failing oracle, batch resolution on a
fresh store is empty and both generators return their fixed fallbacks. -/
theorem C8_extractors_fail_open_witness :
    analyze_all_unanswered oracle_fail [] questionnaire_init_answers = [] ∧
    generate_followup oracle_fail ⟨1, Category.APPEARANCE_AWARENESS, "t", [], [], []⟩ [] "hi"
      = followup_fallback ∧
    get_next_prompt oracle_fail [] [] = next_prompt_fallback := by
  have h := C8_extractors_fail_open oracle_fail [] questionnaire_init_answers
    ⟨1, Category.APPEARANCE_AWARENESS, "t", [], [], []⟩ "hi" [] []
  exact ⟨h.2.2.1 rfl, h.2.2.2.1 rfl, h.2.2.2.2 rfl⟩

/-- A key of an updated dict is an old key or the written key. -/
theorem mem_keys_pyDictSet {α : Type} (d : PyDict α) (k : Int) (v : α) (a : Int)
    (h : a ∈ (pyDictSet d k v).map Prod.fst) : a ∈ d.map Prod.fst ∨ a = k := by
  rcases List.mem_map.1 h with ⟨p, hp, hpa⟩
  rcases mem_pyDictSet d k v p hp with h2 | h2
  · left; exact hpa ▸ List.mem_map_of_mem Prod.fst h2
  · right; rw [h2] at hpa; exact hpa ▸ rfl

/-- A dict update preserves uniqueness of the keys. -/
theorem nodup_keys_pyDictSet {α : Type} (d : PyDict α) (k : Int) (v : α)
    (h : (d.map Prod.fst).Nodup) : ((pyDictSet d k v).map Prod.fst).Nodup := by
  induction d with
  | nil => simp [pyDictSet]
  | cons q rest ih =>
    simp only [List.map_cons, List.nodup_cons] at h
    by_cases hq : q.1 = k
    · simp only [pyDictSet, beq_iff_eq, hq, if_true, List.map_cons, List.nodup_cons]
      exact ⟨hq ▸ h.1, h.2⟩
    · simp only [pyDictSet, beq_iff_eq, hq, if_false, List.map_cons, List.nodup_cons]
      refine ⟨?_, ih h.2⟩
      intro hmem
      rcases mem_keys_pyDictSet rest k v q.1 hmem with h2 | h2
      · exact h.1 h2
      · exact hq h2

/-- Folding dict assignments over a list of pairs preserves uniqueness of
the keys. -/
theorem nodup_keys_foldl_pyDictSet {α : Type} (l : List (Int × α)) (acc : PyDict α)
    (h : (acc.map Prod.fst).Nodup) :
    ((l.foldl (fun d p => pyDictSet d p.1 p.2) acc).map Prod.fst).Nodup := by
  induction l generalizing acc with
  | nil => exact h
  | cons q rest ih => exact ih (pyDictSet acc q.1 q.2) (nodup_keys_pyDictSet acc q.1 q.2 h)

/-- One step of the pursued-question loop has exactly three shapes: no
change, a recorded answer with its counter reset, or a bumped counter with
a queued follow-up. -/
theorem resolve_pursued_step_shape (o : Oracle) (history : List Msg) (user_input : String)
    (store : AnswerStore) (acc : PursuedResult) (q : Question) :
    resolve_pursued_step o history user_input store acc q = acc ∨
    (∃ ans, resolve_pursued_step o history user_input store acc q =
      ⟨pyDictSet acc.answered q.id ans, pyDictSet acc.attempts q.id 0, acc.pending, true⟩) ∨
    (∃ n, resolve_pursued_step o history user_input store acc q =
      ⟨acc.answered, pyDictSet acc.attempts q.id n,
       some (generate_followup o q (takeLast 6 history) user_input), acc.any_answered⟩) := by
  unfold resolve_pursued_step
  split
  · rcases hA : analyze_single_question o user_input history q with _ | ans
    · simp only [hA]
      split
      · left; rfl
      · right; right
        exact ⟨pyDictGetD acc.attempts q.id 0 + 1, rfl⟩
    · simp only [hA]
      right; left
      exact ⟨ans, rfl⟩
  · left; rfl

/-- The pursued-question loop keeps the keys of its answer dict unique. -/
theorem resolve_loop_answered_nodup (o : Oracle) (history : List Msg) (user_input : String)
    (store : AnswerStore) (L : List Question) (acc : PursuedResult)
    (h : (acc.answered.map Prod.fst).Nodup) :
    (((L.foldl (resolve_pursued_step o history user_input store) acc).answered).map Prod.fst).Nodup := by
  induction L generalizing acc with
  | nil => exact h
  | cons q rest ih =>
    refine ih (resolve_pursued_step o history user_input store acc q) ?_
    rcases resolve_pursued_step_shape o history user_input store acc q with hs | ⟨ans, hs⟩ | ⟨n, hs⟩
    · rw [hs]; exact h
    · rw [hs]; exact nodup_keys_pyDictSet acc.answered q.id ans h
    · rw [hs]; exact h

/-- The answer dict returned by a whole turn has unique keys. -/
theorem process_user_reply_answers_nodup (o : Oracle) (s : ChatState) (user_input : String) :
    (((process_user_reply o s user_input).1).map Prod.fst).Nodup := by
  have h1 : (((process_step1 o s (s.history ++ [⟨"user", user_input⟩]) user_input).1).map
      Prod.fst).Nodup := by
    unfold process_step1
    split
    · unfold process_step1A
      split
      · unfold resolve_pursued
        exact resolve_loop_answered_nodup o _ user_input s.store _ _ (by simp)
      · unfold resolve_pursued
        exact resolve_loop_answered_nodup o _ user_input s.store _ _ (by simp)
    · simp
  unfold process_user_reply process_step2
  split
  · exact nodup_keys_foldl_pyDictSet _ _ h1
  · exact h1

/-- Applying answer writes for keys other than k leaves the lookup at k
unchanged. -/
theorem pyDictGet?_apply_answers_notmem (answers : PyDict String) (st : AnswerStore)
    (k : Int) (h : ∀ p ∈ answers, p.1 ≠ k) :
    pyDictGet? (apply_answers st answers) k = pyDictGet? st k := by
  induction answers generalizing st with
  | nil => rfl
  | cons q rest ih =>
    have hstep : apply_answers st (q :: rest)
        = apply_answers (pyDictSet st q.1 (some ⟨q.2, "avika"⟩)) rest := rfl
    rw [hstep, ih (pyDictSet st q.1 (some ⟨q.2, "avika"⟩))
      (fun p hp => h p (List.mem_cons_of_mem q hp))]
    exact pyDictGet?_pyDictSet_ne st q.1 k _ (h q (List.mem_cons_self q rest)).symm

/-- Every pair of an answer dict with unique keys is written to the Answer
Store by apply_answers, with source avika. -/
theorem pyDictGet?_apply_answers_of_get (answers : PyDict String) (st : AnswerStore)
    (qid : Int) (a : String) (hnd : (answers.map Prod.fst).Nodup)
    (hget : pyDictGet? answers qid = some a) :
    pyDictGet? (apply_answers st answers) qid = some (some ⟨a, "avika"⟩) := by
  induction answers generalizing st with
  | nil => simp [pyDictGet?] at hget
  | cons q rest ih =>
    simp only [List.map_cons, List.nodup_cons] at hnd
    have hstep : apply_answers st (q :: rest)
        = apply_answers (pyDictSet st q.1 (some ⟨q.2, "avika"⟩)) rest := rfl
    by_cases hq : q.1 = qid
    · have hval : q.2 = a := by
        simp only [pyDictGet?, beq_iff_eq, hq, if_true] at hget
        exact Option.some.inj hget
      rw [hstep]
      have hnot : ∀ p ∈ rest, p.1 ≠ qid := by
        intro p hp hpk
        apply hnd.1
        have hm : p.1 ∈ List.map Prod.fst rest := List.mem_map_of_mem Prod.fst hp
        have hpq : q.1 = p.1 := hq.trans hpk.symm
        rw [hpq]
        exact hm
      rw [pyDictGet?_apply_answers_notmem rest _ qid hnot]
      rw [← hq, hval]
      exact pyDictGet?_pyDictSet_self st q.1 (some ⟨a, "avika"⟩)
    · simp only [pyDictGet?, beq_iff_eq, hq, if_false] at hget
      rw [hstep]
      exact ih (pyDictSet st q.1 (some ⟨q.2, "avika"⟩)) hnd.2 hget

/-- The second half of a turn passes the attempt counters through
unchanged. -/
theorem process_step2_attempts (o : Oracle) (history : List Msg) (store : AnswerStore)
    (t : PyDict String × PyDict Int × Option String × Option (List Int)) :
    (process_step2 o history store t).2.followup_attempts = t.2.1 := by
  unfold process_step2
  split <;> rfl

/-- The pursued block passes the attempt counters of the loop through. -/
theorem process_step1A_attempts (s : ChatState) (r : PursuedResult) :
    (process_step1A s r).2.1 = r.attempts := by
  unfold process_step1A
  split <;> rfl

/-- Along the pursued-question loop, every question whose answer was
recorded by the loop has its attempt counter set to zero, provided the
loop questions have distinct ids and none of them was answered before the
loop. -/
theorem resolve_loop_attempts_zero (o : Oracle) (history : List Msg) (user_input : String)
    (store : AnswerStore) :
    ∀ (L : List Question) (acc : PursuedResult),
    (∀ k b, pyDictGet? acc.answered k = some b → pyDictGet? acc.attempts k = some 0) →
    (∀ q ∈ L, pyDictGet? acc.answered q.id = none) →
    (L.map Question.id).Nodup →
    ∀ qid a,
      pyDictGet? ((L.foldl (resolve_pursued_step o history user_input store) acc).answered) qid
        = some a →
      pyDictGet? ((L.foldl (resolve_pursued_step o history user_input store) acc).attempts) qid
        = some 0 := by
  intro L
  induction L with
  | nil =>
    intro acc hInv _ _
    exact hInv
  | cons q rest ih =>
    intro acc hInv hFresh hNd qid a
    simp only [List.foldl_cons]
    simp only [List.map_cons, List.nodup_cons] at hNd
    rcases resolve_pursued_step_shape o history user_input store acc q
      with hs | ⟨ans, hs⟩ | ⟨n, hs⟩
    · rw [hs]
      exact ih acc hInv (fun q' hq' => hFresh q' (List.mem_cons_of_mem q hq')) hNd.2 qid a
    · rw [hs]
      refine ih _ ?_ ?_ hNd.2 qid a
      · intro k b hk
        by_cases hkq : k = q.id
        · subst hkq
          exact pyDictGet?_pyDictSet_self acc.attempts q.id 0
        · rw [pyDictGet?_pyDictSet_ne acc.answered q.id k ans hkq] at hk
          rw [pyDictGet?_pyDictSet_ne acc.attempts q.id k 0 hkq]
          exact hInv k b hk
      · intro q' hq'
        have hne : q'.id ≠ q.id := by
          intro hC
          exact hNd.1 (hC ▸ List.mem_map_of_mem Question.id hq')
        rw [pyDictGet?_pyDictSet_ne acc.answered q.id q'.id ans hne]
        exact hFresh q' (List.mem_cons_of_mem q hq')
    · rw [hs]
      refine ih ⟨acc.answered, pyDictSet acc.attempts q.id n,
        some (generate_followup o q (takeLast 6 history) user_input), acc.any_answered⟩
        ?_ (fun q' hq' => hFresh q' (List.mem_cons_of_mem q hq')) hNd.2 qid a
      intro k b hk
      by_cases hkq : k = q.id
      · subst hkq
        rw [hFresh q (List.mem_cons_self q rest)] at hk
        exact Option.noConfusion hk
      · rw [pyDictGet?_pyDictSet_ne acc.attempts q.id k n hkq]
        exact hInv k b hk

/-- The ids of the bank questions are distinct. -/
theorem questions_ids_nodup : (questions.map Question.id).Nodup := by decide

/-- Claim C4 as amended: every (question id, letter) pair resolved in a
turn — by pursued single-question resolution or by batch resolution — is
written to the Answer Store with source avika (not assistant), and the
follow-up attempt counter is reset to zero only for the pairs resolved by
pursued single-question resolution; batch resolution leaves the counters
unchanged. -/
theorem C4_resolved_pairs_written (o : Oracle) (s : ChatState) (user_input : String) :
    (∀ qid a, pyDictGet? (process_user_reply o s user_input).1 qid = some a →
      pyDictGet? (post_process_state o s user_input).store qid = some (some ⟨a, "avika"⟩)) ∧
    (pyTruthyListOpt s.last_pursued_question_ids = true →
      ∀ qid a,
        pyDictGet? (resolve_pursued o (s.history ++ [⟨"user", user_input⟩]) user_input s.store
          (s.last_pursued_question_ids.getD []) s.followup_attempts
          s.pending_followup).answered qid = some a →
        pyDictGet? (process_user_reply o s user_input).2.followup_attempts qid = some 0) := by
  constructor
  · intro qid a hget
    unfold post_process_state
    exact pyDictGet?_apply_answers_of_get _ _ qid a
      (process_user_reply_answers_nodup o s user_input) hget
  · intro hp qid a hget
    have hstep : process_step1 o s (s.history ++ [⟨"user", user_input⟩]) user_input
        = process_step1A s (resolve_pursued o (s.history ++ [⟨"user", user_input⟩]) user_input
            s.store (s.last_pursued_question_ids.getD []) s.followup_attempts
            s.pending_followup) := by
      unfold process_step1
      rw [if_pos hp]
    have hatt : (process_user_reply o s user_input).2.followup_attempts
        = (resolve_pursued o (s.history ++ [⟨"user", user_input⟩]) user_input s.store
            (s.last_pursued_question_ids.getD []) s.followup_attempts
            s.pending_followup).attempts := by
      unfold process_user_reply
      rw [hstep, process_step2_attempts, process_step1A_attempts]
    rw [hatt]
    unfold resolve_pursued at hget ⊢
    refine resolve_loop_attempts_zero o _ user_input s.store _ _ ?_ ?_ ?_ qid a hget
    · intro k b hk
      simp [pyDictGet?] at hk
    · intro q' _
      rfl
    · exact questions_ids_nodup.sublist ((List.filter_sublist _).map Question.id)

/-- Witness for the amended C4: pursuing question 1 with an oracle that
answers A, the pair is stored with source avika and the counter is reset. -/
theorem C4_resolved_pairs_written_witness :
    pyDictGet? (post_process_state oracle_all_A state_pursuing_q1 "hello").store 1
      = some (some ⟨"A", "avika"⟩) ∧
    pyDictGet? (process_user_reply oracle_all_A state_pursuing_q1 "hello").2.followup_attempts 1
      = some 0 := by
  have h := C4_resolved_pairs_written oracle_all_A state_pursuing_q1 "hello"
  exact ⟨h.1 1 "A" (by decide), h.2 (by decide) 1 "A" (by decide)⟩

/-- Counterexample to C4 as stated: a batch-resolved pair is written with
source avika, not assistant, and its follow-up attempt counter (previously
2) is not reset to zero. -/
theorem C4_counterexample :
    pyDictGet? (process_user_reply oracle_batch_q1 state_attempts_q1 "I feel fine").1 1
      = some "A" ∧
    pyDictGet? (post_process_state oracle_batch_q1 state_attempts_q1 "I feel fine").store 1
      = some (some ⟨"A", "avika"⟩) ∧
    (pyDictGet? (post_process_state oracle_batch_q1 state_attempts_q1 "I feel fine").store 1
      == some (some ⟨"A", "assistant"⟩)) = false ∧
    pyDictGet? (process_user_reply oracle_batch_q1 state_attempts_q1
      "I feel fine").2.followup_attempts 1 = some 2 := by
  refine ⟨by decide, by decide, by decide, by decide⟩

/-- Claim C5 evaluated at the failing input: on a fresh session, a batch
reply naming question number 99 — an id of no bank question — is written to
the Answer Store under key 99, because analyze_all_unanswered filters the
values of the decoded mapping but never validates its keys against the
bank; the store then holds 13 keys and the bank invariant of the spec is
violated. -/
theorem C5_batch_records_unknown_id :
    pyDictGet? (post_process_state oracle_batch_q99 initial_state "I feel fine").store 99
      = some (some ⟨"A", "avika"⟩) ∧
    decide (99 ∈ questions.map Question.id) = false ∧
    ((post_process_state oracle_batch_q99 initial_state "I feel fine").store).length = 13 := by
  refine ⟨by decide, by decide, by decide⟩

/-- Membership in one step of the category-collection fold. -/
theorem mem_encounter_step (acc : List Category) (q : Question) (c : Category) :
    c ∈ (if q.category ∈ acc then acc else acc ++ [q.category]) ↔ c ∈ acc ∨ c = q.category := by
  split
  · rename_i hm
    constructor
    · intro h; left; exact h
    · rintro (h | h)
      · exact h
      · rw [h]; exact hm
  · simp [List.mem_append]

/-- Membership in the category-collection fold from any accumulator. -/
theorem mem_encounter_foldl (l : List Question) :
    ∀ (acc : List Category) (c : Category),
    c ∈ l.foldl (fun acc q => if q.category ∈ acc then acc else acc ++ [q.category]) acc ↔
    c ∈ acc ∨ ∃ q ∈ l, q.category = c := by
  induction l with
  | nil =>
    intro acc c
    simp
  | cons q rest ih =>
    intro acc c
    simp only [List.foldl_cons]
    rw [ih, mem_encounter_step]
    constructor
    · rintro ((h | h) | ⟨q2, hq2, hc⟩)
      · left; exact h
      · right; exact ⟨q, List.mem_cons_self q rest, h.symm⟩
      · right; exact ⟨q2, List.mem_cons_of_mem q hq2, hc⟩
    · rintro (h | ⟨q2, hq2, hc⟩)
      · left; left; exact h
      · rcases List.mem_cons.1 hq2 with h2 | h2
        · left; right
          rw [h2] at hc
          exact hc.symm
        · right; exact ⟨q2, h2, hc⟩

/-- A category is encountered exactly when some question of the list has it. -/
theorem mem_encounter_categories (l : List Question) (c : Category) :
    c ∈ encounter_categories l ↔ ∃ q ∈ l, q.category = c := by
  unfold encounter_categories
  rw [mem_encounter_foldl]
  simp

/-- Appending one question extends the encountered categories by its
category when new. -/
theorem encounter_categories_append_singleton (l : List Question) (q : Question) :
    encounter_categories (l ++ [q]) =
      if q.category ∈ encounter_categories l then encounter_categories l
      else encounter_categories l ++ [q.category] := by
  unfold encounter_categories
  rw [List.foldl_append]
  rfl

/-- The defaultdict grouping loop equals, entry by entry, the filter of the
list by each category in first-encounter order. -/
theorem groupByCategory_eq (l : List Question) :
    groupByCategory l = (encounter_categories l).map
      (fun c => (c, l.filter (fun q => decide (q.category = c)))) := by
  induction l using List.reverseRecOn with
  | nil => rfl
  | append_singleton l q ih =>
    have hstep : groupByCategory (l ++ [q]) =
        (if (groupByCategory l).any (fun p => p.1 == q.category) then
          (groupByCategory l).map (fun p => if p.1 == q.category then (p.1, p.2 ++ [q]) else p)
        else groupByCategory l ++ [(q.category, [q])]) := by
      unfold groupByCategory
      rw [List.foldl_append]
      rfl
    rw [hstep, encounter_categories_append_singleton, ih]
    by_cases hm : q.category ∈ encounter_categories l
    · have hany : ((encounter_categories l).map
          (fun c => (c, List.filter (fun q2 => decide (q2.category = c)) l))).any
          (fun p => p.1 == q.category) = true := by
        rw [List.any_eq_true]
        refine ⟨(q.category, List.filter (fun q2 => decide (q2.category = q.category)) l),
          List.mem_map_of_mem _ hm, by simp⟩
      rw [if_pos hany, if_pos hm, List.map_map]
      refine List.map_congr_left ?_
      intro c _
      by_cases hc : c = q.category
      · subst hc
        simp [List.filter_append]
      · have hbeq : (c == q.category) = false := by
          simp [hc]
        have hcc : ¬q.category = c := fun h => hc h.symm
        simp [Function.comp, hbeq, hc, List.filter_append, hcc]
    · have hany : ((encounter_categories l).map
          (fun c => (c, List.filter (fun q2 => decide (q2.category = c)) l))).any
          (fun p => p.1 == q.category) = false := by
        rw [Bool.eq_false_iff]
        intro hA
        rw [List.any_eq_true] at hA
        rcases hA with ⟨p, hp, hpq⟩
        rcases List.mem_map.1 hp with ⟨c, hc, hcp⟩
        apply hm
        rw [beq_iff_eq] at hpq
        rw [← hcp] at hpq
        simp at hpq
        rw [← hpq]
        exact hc
      rw [if_neg (by simp [hany]), if_neg hm, List.map_append]
      congr 1
      · refine List.map_congr_left ?_
        intro c hc
        have hne : c ≠ q.category := fun h => hm (h ▸ hc)
        have hcc : ¬q.category = c := fun h => hne h.symm
        simp [List.filter_append, hcc]
      · have hfilt : List.filter (fun q2 => decide (q2.category = q.category)) l = [] := by
          rw [List.filter_eq_nil_iff]
          intro a ha
          simp only [decide_eq_true_eq]
          intro hEq
          exact hm ((mem_encounter_categories l q.category).2 ⟨a, ha, hEq⟩)
        simp [List.filter_append, hfilt]

/-- find? only depends on the predicate on the members of the list. -/
theorem find?_congr_mem {α : Type} (p q : α → Bool) (l : List α)
    (h : ∀ a ∈ l, p a = q a) : l.find? p = l.find? q := by
  induction l with
  | nil => rfl
  | cons x xs ih =>
    rw [List.find?_cons, List.find?_cons, h x (List.mem_cons_self x xs)]
    cases hq : q x with
    | true => rfl
    | false => exact ih (fun a ha => h a (List.mem_cons_of_mem x ha))

/-- The running maximum of the length fold is an element of the list. -/
theorem foldl_max_mem (gs : List (List Question)) :
    ∀ g : List Question,
    gs.foldl (fun best x => if x.length > best.length then x else best) g ∈ g :: gs := by
  induction gs with
  | nil => intro g; simp
  | cons x xs ih =>
    intro g
    simp only [List.foldl_cons]
    by_cases h : x.length > g.length
    · rw [if_pos h]
      have h2 := ih x
      simp only [List.mem_cons] at h2 ⊢
      tauto
    · rw [if_neg h]
      have h2 := ih g
      simp only [List.mem_cons] at h2 ⊢
      tauto

/-- The running maximum of the length fold bounds every element. -/
theorem foldl_max_le (gs : List (List Question)) :
    ∀ (g y : List Question), y ∈ g :: gs →
    y.length ≤ (gs.foldl (fun best x => if x.length > best.length then x else best) g).length := by
  induction gs with
  | nil =>
    intro g y hy
    simp only [List.mem_cons, List.not_mem_nil, or_false] at hy
    rw [hy]
    simp
  | cons x xs ih =>
    intro g y hy
    simp only [List.foldl_cons]
    by_cases h : x.length > g.length
    · rw [if_pos h]
      rcases List.mem_cons.1 hy with h2 | h2
      · calc y.length = g.length := by rw [h2]
          _ ≤ x.length := Nat.le_of_lt h
          _ ≤ _ := ih x x (List.mem_cons_self x xs)
      · exact ih x y h2
    · rw [if_neg h]
      rcases List.mem_cons.1 hy with h2 | h2
      · rw [h2]
        exact ih g g (List.mem_cons_self g xs)
      · rcases List.mem_cons.1 h2 with h3 | h3
        · rw [h3]
          calc x.length ≤ g.length := Nat.le_of_not_lt h
            _ ≤ _ := ih g g (List.mem_cons_self g xs)
        · exact ih g y (List.mem_cons_of_mem g h3)

/-- Python max by length returns exactly the first element whose length is
greatest, the one found by searching for an element at least as long as all. -/
theorem pyMaxByLen_spec (g : List Question) (gs : List (List Question)) :
    (g :: gs).find? (fun y => (g :: gs).all (fun z => z.length ≤ y.length))
      = some (pyMaxByLen g gs) := by
  unfold pyMaxByLen
  induction gs using List.reverseRecOn with
  | nil => simp [List.find?]
  | append_singleton gs x ih =>
    rw [List.foldl_append]
    simp only [List.foldl_cons, List.foldl_nil]
    have hmem := foldl_max_mem gs g
    have hle := foldl_max_le gs g
    set b := gs.foldl (fun best x => if x.length > best.length then x else best) g with hb
    by_cases hx : x.length > b.length
    · rw [if_pos hx]
      have hcons : g :: (gs ++ [x]) = (g :: gs) ++ [x] := by simp
      rw [hcons, List.find?_append]
      have hnone : (g :: gs).find?
          (fun y => ((g :: gs) ++ [x]).all (fun z => z.length ≤ y.length)) = none := by
        rw [List.find?_eq_none]
        intro y hy hall
        simp only [List.all_eq_true, decide_eq_true_eq] at hall
        have h1 : x.length ≤ y.length := hall x (by simp)
        have h2 : y.length ≤ b.length := hle y hy
        omega
      rw [hnone]
      simp only [Option.none_or]
      have hall : ((g :: gs) ++ [x]).all (fun z => z.length ≤ x.length) = true := by
        rw [List.all_eq_true]
        intro z hz
        simp only [decide_eq_true_eq]
        rcases List.mem_append.1 hz with h2 | h2
        · have := hle z h2
          omega
        · simp only [List.mem_singleton] at h2
          rw [h2]
      simp only [List.find?]
      rw [hall]
    · rw [if_neg hx]
      have hx2 : x.length ≤ b.length := Nat.le_of_not_lt hx
      have hcons : g :: (gs ++ [x]) = (g :: gs) ++ [x] := by simp
      rw [hcons, List.find?_append]
      have hcongr : (g :: gs).find?
          (fun y => ((g :: gs) ++ [x]).all (fun z => z.length ≤ y.length))
          = (g :: gs).find? (fun y => (g :: gs).all (fun z => z.length ≤ y.length)) := by
        refine find?_congr_mem _ _ _ ?_
        intro y _
        cases hpy : (g :: gs).all (fun z => z.length ≤ y.length) with
        | true =>
          have hyb : b.length ≤ y.length := by
            rw [List.all_eq_true] at hpy
            have := hpy b hmem
            simpa using this
          rw [List.all_append]
          rw [hpy]
          simp only [Bool.true_and, List.all_cons, List.all_nil, Bool.and_true]
          simp only [decide_eq_true_eq]
          omega
        | false =>
          rw [List.all_append, hpy]
          simp
      rw [hcongr, ih]
      simp

/-- The specification-side largest group is the Python max by length. -/
theorem spec_largest_group_eq (g : List Question) (gs : List (List Question)) :
    spec_largest_group (g :: gs) = pyMaxByLen g gs := by
  unfold spec_largest_group
  rw [pyMaxByLen_spec]
  rfl

/-- A non-empty question list encounters at least one category. -/
theorem encounter_categories_ne_nil (u : Question) (rest : List Question) :
    encounter_categories (u :: rest) ≠ [] := by
  have hm : u.category ∈ encounter_categories (u :: rest) :=
    (mem_encounter_categories _ _).2 ⟨u, List.mem_cons_self u rest, rfl⟩
  intro h
  rw [h] at hm
  simp at hm

/-- Claim C3: for a non-empty set of unanswered questions, the chosen group
is the up-to-3-element prefix of the largest category group (ties broken by
encounter order), falling back to the singleton of the globally-first
unanswered question when no category holds more than one; the group is
non-empty and response generation records its ids as the new pursuit set. -/
theorem C3_group_selection (o : Oracle) (s : ChatState)
    (h1 : get_unanswered_questions s.store ≠ [])
    (h2 : pyTruthyStrOpt s.pending_followup = false) :
    get_next_unanswered_group s.store = spec_next_group s.store ∧
    get_next_unanswered_group s.store ≠ [] ∧
    (generate_response o s).2.last_pursued_question_ids
      = some ((get_next_unanswered_group s.store).map (fun q => q.id)) := by
  obtain ⟨u, rest, hu⟩ : ∃ u rest, get_unanswered_questions s.store = u :: rest := by
    cases hL : get_unanswered_questions s.store with
    | nil => exact absurd hL h1
    | cons a l => exact ⟨a, l, rfl⟩
  have hgroups : (groupByCategory (u :: rest)).map (fun p => p.2) = spec_groups (u :: rest) := by
    rw [groupByCategory_eq]
    unfold spec_groups
    rw [List.map_map]
    rfl
  obtain ⟨g0, gs0, hg⟩ : ∃ g0 gs0, spec_groups (u :: rest) = g0 :: gs0 := by
    cases hS : spec_groups (u :: rest) with
    | nil =>
      exfalso
      unfold spec_groups at hS
      rcases List.map_eq_nil_iff.1 hS with hE
      exact encounter_categories_ne_nil u rest hE
    | cons a l => exact ⟨a, l, rfl⟩
  have hbest : pyMaxByLen g0 gs0 = spec_largest_group (g0 :: gs0) :=
    (spec_largest_group_eq g0 gs0).symm
  have hmem := foldl_max_mem gs0 g0
  have hle := foldl_max_le gs0 g0
  have hmain : get_next_unanswered_group s.store = spec_next_group s.store ∧
      get_next_unanswered_group s.store ≠ [] := by
    unfold get_next_unanswered_group spec_next_group
    simp only [hu, hgroups, hg]
    by_cases hball : (g0 :: gs0).all (fun g => g.length ≤ 1) = true
    · have hnb : ¬ (pyMaxByLen g0 gs0).length > 1 := by
        rw [List.all_eq_true] at hball
        have := hball (pyMaxByLen g0 gs0) (by unfold pyMaxByLen; exact hmem)
        simp only [decide_eq_true_eq] at this
        omega
      rw [if_neg hnb, if_pos hball]
      exact ⟨rfl, by simp⟩
    · have hex : ∃ y ∈ g0 :: gs0, 1 < y.length := by
        by_contra hC
        push_neg at hC
        apply hball
        rw [List.all_eq_true]
        intro z hz
        simp only [decide_eq_true_eq]
        exact Nat.le_of_not_lt (fun hlt => absurd hlt (by
          intro hlt2
          exact absurd (hC z hz) (by simp [hlt2])))
      have hb : (pyMaxByLen g0 gs0).length > 1 := by
        rcases hex with ⟨y, hy, hy1⟩
        have := hle y hy
        unfold pyMaxByLen
        omega
      rw [if_pos hb, if_neg hball, hbest]
      refine ⟨rfl, ?_⟩
      intro hC
      have hlen : (spec_largest_group (g0 :: gs0)).length > 1 := by
        rw [← hbest]
        exact hb
      rcases List.take_eq_nil_iff.1 hC with h3 | h3
      · exact absurd h3 (by omega)
      · rw [h3] at hlen
        simp at hlen
  refine ⟨hmain.1, hmain.2, ?_⟩
  obtain ⟨w, ws, hW⟩ : ∃ w ws, get_next_unanswered_group s.store = w :: ws := by
    cases hL : get_next_unanswered_group s.store with
    | nil => exact absurd hL hmain.2
    | cons a l => exact ⟨a, l, rfl⟩
  unfold generate_response
  simp only [h2, Bool.false_eq_true, if_false, hW]

/-- Witness for C3 on a fresh session: the first group is questions 1, 2
and 3 of the first category, and its ids become the pursuit set. -/
theorem C3_group_selection_witness :
    get_next_unanswered_group initial_state.store = spec_next_group initial_state.store ∧
    (generate_response oracle_fail initial_state).2.last_pursued_question_ids
      = some [1, 2, 3] := by
  have h := C3_group_selection oracle_fail initial_state (by decide) rfl
  refine ⟨h.1, ?_⟩
  rw [h.2.2]
  decide

/-- A successful dict lookup exhibits a member pair. -/
theorem pyDictGet?_mem {α : Type} (d : PyDict α) (k : Int) (v : α)
    (h : pyDictGet? d k = some v) : (k, v) ∈ d := by
  induction d with
  | nil => simp [pyDictGet?] at h
  | cons p rest ih =>
    by_cases hp : p.1 = k
    · simp only [pyDictGet?, beq_iff_eq, hp, if_true] at h
      have hv : v = p.2 := (Option.some.inj h).symm
      have : (k, v) = p := by
        rw [hv, ← hp]
      rw [this]
      exact List.mem_cons_self p rest
    · simp only [pyDictGet?, beq_iff_eq, hp, if_false] at h
      exact List.mem_cons_of_mem p (ih h)

/-- Under the letters hypothesis, every answered letter collected from the
store is one of the four options. -/
theorem spec_letters_mem (store : AnswerStore) (L : List Question)
    (hlet : ∀ p ∈ store, ∀ ad, p.2 = some ad →
      ad.answer ∈ (["A", "B", "C", "D"] : List String)) :
    ∀ s ∈ spec_letters store L, s ∈ (["A", "B", "C", "D"] : List String) := by
  intro s hs
  unfold spec_letters at hs
  rcases List.mem_filterMap.1 hs with ⟨q, _, hEq⟩
  cases hget : pyDictGet? store q.id with
  | none => rw [hget] at hEq; simp at hEq
  | some v =>
    cases v with
    | none => rw [hget] at hEq; simp at hEq
    | some ad =>
      rw [hget] at hEq
      simp at hEq
      have hmem := pyDictGet?_mem store q.id (some ad) hget
      have := hlet (q.id, some ad) hmem ad rfl
      rwa [← hEq]

/-- Each of the four option letters has a defined ord and a per-letter score
between 1 and 4. -/
theorem letter_score_facts (s : String)
    (h : s ∈ (["A", "B", "C", "D"] : List String)) :
    (∃ n, pyOrd s = some n) ∧ 1 ≤ spec_letter_score_int s ∧ spec_letter_score_int s ≤ 4 := by
  simp only [List.mem_cons, List.mem_singleton, List.not_mem_nil, or_false] at h
  rcases h with h | h | h | h <;> subst h <;> exact ⟨⟨_, rfl⟩, by decide, by decide⟩

/-- The per-letter scores of option letters sum to between the count and
four times the count. -/
theorem sum_scores_bounds (letters : List String)
    (h : ∀ s ∈ letters, s ∈ (["A", "B", "C", "D"] : List String)) :
    (letters.length : Int) ≤ (letters.map spec_letter_score_int).sum ∧
    (letters.map spec_letter_score_int).sum ≤ 4 * letters.length := by
  induction letters with
  | nil => simp
  | cons s rest ih =>
    have hs := letter_score_facts s (h s (List.mem_cons_self s rest))
    have hr := ih (fun t ht => h t (List.mem_cons_of_mem s ht))
    simp only [List.map_cons, List.sum_cons, List.length_cons]
    push_cast
    omega

/-- The rational per-letter score is the cast of the integer one. -/
theorem spec_letter_score_cast (s : String) :
    spec_letter_score s = ((spec_letter_score_int s : Int) : ℚ) := by
  unfold spec_letter_score spec_letter_score_int
  cases pyOrd s with
  | none => simp
  | some c => push_cast; ring

/-- Casting the integer score sum gives the rational score sum. -/
theorem sum_scores_cast (letters : List String) :
    (((letters.map spec_letter_score_int).sum : Int) : ℚ)
      = (letters.map spec_letter_score).sum := by
  induction letters with
  | nil => simp
  | cons s rest ih =>
    simp only [List.map_cons, List.sum_cons]
    rw [Int.cast_add, ih, spec_letter_score_cast]

/-- The scoring loop of get_category_score accumulates exactly the sum of
per-letter scores and the count of answered questions, for a store whose
keys cover the questions and whose letters are among the four options. -/
theorem score_fold_spec (store : AnswerStore)
    (hlet : ∀ p ∈ store, ∀ ad, p.2 = some ad →
      ad.answer ∈ (["A", "B", "C", "D"] : List String)) :
    ∀ (L : List Question), (∀ q ∈ L, (pyDictGet? store q.id).isSome) →
    ∀ (t : Int) (c : Nat),
    L.foldl (score_step store) (some (t, c))
      = some (t + ((spec_letters store L).map spec_letter_score_int).sum,
              c + (spec_letters store L).length) := by
  intro L
  induction L with
  | nil =>
    intro _ t c
    simp [spec_letters]
  | cons q rest ih =>
    intro hkeys t c
    simp only [List.foldl_cons]
    cases hget : pyDictGet? store q.id with
    | none =>
      exfalso
      have := hkeys q (List.mem_cons_self q rest)
      rw [hget] at this
      simp at this
    | some v =>
      cases v with
      | none =>
        have hstep : score_step store (some (t, c)) q = some (t, c) := by
          unfold score_step
          simp only [hget]
        rw [hstep, ih (fun q2 hq2 => hkeys q2 (List.mem_cons_of_mem q hq2)) t c]
        have hlq : spec_letters store (q :: rest) = spec_letters store rest := by
          unfold spec_letters
          simp [List.filterMap_cons, hget]
        rw [hlq]
      | some ad =>
        have hans : ad.answer ∈ (["A", "B", "C", "D"] : List String) :=
          hlet (q.id, some ad) (pyDictGet?_mem store q.id (some ad) hget) ad rfl
        rcases (letter_score_facts ad.answer hans).1 with ⟨n, hn⟩
        have hstep : score_step store (some (t, c)) q
            = some (t + ((68 : Int) - (n : Int) + 1), c + 1) := by
          unfold score_step
          simp only [hget, hn]
        rw [hstep, ih (fun q2 hq2 => hkeys q2 (List.mem_cons_of_mem q hq2))]
        have hlq : spec_letters store (q :: rest)
            = ad.answer :: spec_letters store rest := by
          unfold spec_letters
          simp [List.filterMap_cons, hget]
        rw [hlq]
        have hscore : spec_letter_score_int ad.answer = (68 : Int) - (n : Int) + 1 := by
          unfold spec_letter_score_int
          rw [hn]
        simp only [List.map_cons, List.sum_cons, List.length_cons, hscore]
        refine congrArg some ?_
        refine Prod.ext ?_ ?_
        · simp only
          ring
        · simp only
          omega

/-- Claim C6: for every store whose letters lie in the four options (and
whose keys cover the bank, as every reachable store does), the category
score is the arithmetic mean of ord of D minus ord of the letter plus one
over the answered questions of the category, is 0 when none are answered,
and always lies in the interval from 0 to 4. -/
theorem C6_category_score (store : AnswerStore)
    (hkeys : ∀ q ∈ questions, (pyDictGet? store q.id).isSome)
    (hlet : ∀ p ∈ store, ∀ ad, p.2 = some ad →
      ad.answer ∈ (["A", "B", "C", "D"] : List String))
    (cat : Category) :
    get_category_score store cat = some (spec_category_mean store cat) ∧
    0 ≤ spec_category_mean store cat ∧
    spec_category_mean store cat ≤ 4 ∧
    (spec_answered_letters store cat = [] → get_category_score store cat = some 0) := by
  have hkeysL : ∀ q ∈ questions.filter (fun q => decide (q.category = cat)),
      (pyDictGet? store q.id).isSome :=
    fun q hq => hkeys q (List.mem_of_mem_filter hq)
  have hfold := score_fold_spec store hlet
    (questions.filter (fun q => decide (q.category = cat))) hkeysL 0 0
  have hlets := spec_letters_mem store
    (questions.filter (fun q => decide (q.category = cat))) hlet
  have hbounds := sum_scores_bounds
    (spec_letters store (questions.filter (fun q => decide (q.category = cat)))) hlets
  have hletters : spec_answered_letters store cat
      = spec_letters store (questions.filter (fun q => decide (q.category = cat))) := rfl
  have hscore : get_category_score store cat = some (spec_category_mean store cat) := by
    unfold get_category_score spec_category_mean
    rw [hletters]
    by_cases hempty :
        (questions.filter (fun q => decide (q.category = cat))).isEmpty = true
    · have hnil : questions.filter (fun q => decide (q.category = cat)) = [] := by
        simpa [List.isEmpty_iff] using hempty
      rw [if_pos hempty]
      rw [hnil]
      simp [spec_letters]
    · rw [if_neg hempty, hfold]
      simp only [Nat.zero_add, Int.zero_add]
      by_cases hcount :
          (spec_letters store (questions.filter (fun q => decide (q.category = cat)))).length > 0
      · have hne : ¬ (spec_letters store
            (questions.filter (fun q => decide (q.category = cat)))).isEmpty = true := by
          cases hLL : spec_letters store (questions.filter (fun q => decide (q.category = cat))) with
          | nil => rw [hLL] at hcount; simp at hcount
          | cons a l => simp
        rw [if_pos hcount, if_neg hne]
        rw [← sum_scores_cast]
      · have hz : (spec_letters store
            (questions.filter (fun q => decide (q.category = cat)))).length = 0 := by omega
        have hnilL : spec_letters store (questions.filter (fun q => decide (q.category = cat))) = [] :=
          List.length_eq_zero.1 hz
        rw [if_neg hcount, hnilL]
        simp
  refine ⟨hscore, ?_, ?_, ?_⟩
  · unfold spec_category_mean
    rw [hletters]
    by_cases hnil : spec_letters store (questions.filter (fun q => decide (q.category = cat))) = []
    · simp [hnil]
    · have hne : ¬ (spec_letters store
          (questions.filter (fun q => decide (q.category = cat)))).isEmpty = true := by
        simpa [List.isEmpty_iff] using hnil
      rw [if_neg hne]
      have hlen : (0 : ℚ) < ((spec_letters store
          (questions.filter (fun q => decide (q.category = cat)))).length : ℚ) := by
        have : 0 < (spec_letters store
            (questions.filter (fun q => decide (q.category = cat)))).length :=
          List.length_pos.2 hnil
        exact_mod_cast this
      apply div_nonneg ?_ (le_of_lt hlen)
      rw [← sum_scores_cast]
      have := hbounds.1
      have hnn : (0 : Int) ≤ (List.map spec_letter_score_int (spec_letters store
          (questions.filter (fun q => decide (q.category = cat))))).sum := by omega
      exact_mod_cast hnn
  · unfold spec_category_mean
    rw [hletters]
    by_cases hnil : spec_letters store (questions.filter (fun q => decide (q.category = cat))) = []
    · simp [hnil]
    · have hne : ¬ (spec_letters store
          (questions.filter (fun q => decide (q.category = cat)))).isEmpty = true := by
        simpa [List.isEmpty_iff] using hnil
      rw [if_neg hne]
      have hlen : (0 : ℚ) < ((spec_letters store
          (questions.filter (fun q => decide (q.category = cat)))).length : ℚ) := by
        have : 0 < (spec_letters store
            (questions.filter (fun q => decide (q.category = cat)))).length :=
          List.length_pos.2 hnil
        exact_mod_cast this
      rw [div_le_iff₀ hlen]
      rw [← sum_scores_cast]
      have h4 := hbounds.2
      have : ((List.map spec_letter_score_int (spec_letters store
          (questions.filter (fun q => decide (q.category = cat))))).sum : ℚ)
          ≤ ((4 * (spec_letters store
            (questions.filter (fun q => decide (q.category = cat)))).length : Int) : ℚ) := by
        exact_mod_cast h4
      calc ((List.map spec_letter_score_int (spec_letters store
          (questions.filter (fun q => decide (q.category = cat))))).sum : ℚ)
          ≤ _ := this
        _ = 4 * ((spec_letters store
            (questions.filter (fun q => decide (q.category = cat)))).length : ℚ) := by
          push_cast
          ring
  · intro hnil
    rw [hscore]
    unfold spec_category_mean
    simp [hnil]

/-- Witness for C6 on a concrete store answering questions 1, 4 and 5. -/
theorem C6_category_score_witness :
    get_category_score store_example Category.APPEARANCE_AWARENESS
      = some (spec_category_mean store_example Category.APPEARANCE_AWARENESS) ∧
    spec_category_mean store_example Category.APPEARANCE_AWARENESS ≤ 4 := by
  have h := C6_category_score store_example (by decide) (by decide)
    Category.APPEARANCE_AWARENESS
  exact ⟨h.1, h.2.2.1⟩

end Avika
